import Mathlib

/-!
Verification of the Sphero Edu control layer (spherov2/sphero_edu.py).

The Python class SpheroEduAPI is shallowly embedded: its mutable fields
`__heading`, `__speed`, `__stabilization`, `__raw_motor` become the structure
`ApiState`; commands sent through ToyUtil become values of the `Cmd` type,
collected in a list; Python exceptions become an `Option PyErr` (or `Except`)
result.  Machine floats are idealised as rationals (reals for the Euclidean
distance accumulator), keeping every comparison and every fold exact.
-/

/-- Python exceptions raised by the embedded code paths. -/
inductive PyErr where
  | attributeError
  | keyError
  | valueError
  deriving DecidableEq

/-- The toy models distinguished by isinstance checks in sphero_edu.py. -/
inductive ToyModel where
  | sphero | ollie | bb8 | bb9e | r2d2 | r2q5 | bolt | mini | rvr
  deriving DecidableEq

/-- Python round: round-half-to-even (banker rounding), as used by the
speed conversion for Mini and by the spin loop. -/
def pyRound (q : ℚ) : ℤ :=
  if q - ⌊q⌋ < 1/2 then ⌊q⌋
  else if 1/2 < q - ⌊q⌋ then ⌊q⌋ + 1
  else if ⌊q⌋ % 2 = 0 then ⌊q⌋ else ⌊q⌋ + 1

/-- Modelled from the spec: the clamping helper bound_value from
spherov2/helper.py, whose source file is not included; section 6 of the
specification states that out-of-range numeric inputs are clamped. -/
def bound_value (lo v hi : ℤ) : ℤ := max lo (min v hi)

/-- Modelled from the spec: rational variant of bound_value used by
set_dome_position for the angle clamp. -/
def bound_valueQ (lo v hi : ℚ) : ℚ := max lo (min v hi)

/-- Raw motor modes, from spherov2.controls.enums.RawMotorModes usage. -/
inductive RawMotorMode where
  | off | forward | reverse
  deriving DecidableEq

/-- Commands sent to the device through ToyUtil. -/
inductive Cmd where
  | rollStart (heading speed : ℤ)
  | rollStop (heading : ℤ)
  | stabilizationCmd (stabilize : Bool)
  | rawMotorCmd (leftMode : RawMotorMode) (leftPower : ℤ)
      (rightMode : RawMotorMode) (rightPower : ℤ)
  | playAnimationCmd (animation : ℤ)
  | playSoundCmd (sound : ℤ)
  | headPositionCmd (angle : ℚ)
  deriving DecidableEq

/-- The MotionState of SpheroEduAPI: fields __heading, __speed,
__stabilization and the two components of the __raw_motor namedtuple. -/
structure ApiState where
  heading : ℤ
  speed : ℤ
  stabilization : Bool
  rawLeft : ℤ
  rawRight : ℤ
  deriving DecidableEq

/-- Initial state from SpheroEduAPI.__init__ (lines 51-54). -/
def initState : ApiState :=
  { heading := 0, speed := 0, stabilization := true, rawLeft := 0, rawRight := 0 }

/-- Result of running a method: final state, commands sent so far, and the
exception escaping the call, if any. -/
structure RunOut where
  state : ApiState
  cmds : List Cmd
  err : Option PyErr
  deriving DecidableEq

/-- Models which isinstance branch of set_stabilization sends a command
(line 194: Sphero, Mini, Ollie, BB8, BB9E, BOLT). -/
def stabilizationModels : ToyModel → Bool
  | .sphero | .mini | .ollie | .bb8 | .bb9e | .bolt => true
  | _ => false

/-- SpheroEduAPI.set_stabilization (lines 178-195): store the flag, and for
the listed models send the stabilization command. -/
def set_stabilization (toy : ToyModel) (stabilize : Bool) (s : ApiState) :
    ApiState × List Cmd :=
  ({ s with stabilization := stabilize },
   if stabilizationModels toy then [Cmd.stabilizationCmd stabilize] else [])

/-- The Mini speed conversion of set_speed / roll (lines 108-109, 128-129):
round((speed + 126) * 2 / 3) if speed > 0 else round((speed - 126) * 2 / 3). -/
def miniSpeed (speed : ℤ) : ℤ :=
  if 0 < speed then pyRound (((speed : ℚ) + 126) * 2 / 3)
  else pyRound (((speed : ℚ) - 126) * 2 / 3)

/-- SpheroEduAPI.set_speed (lines 121-131). -/
def set_speed (toy : ToyModel) (speed : ℤ) (s : ApiState) : ApiState × List Cmd :=
  let speed := if toy = .mini then miniSpeed speed else speed
  let s := { s with speed := bound_value (-255) speed 255 }
  (s, [Cmd.rollStart s.heading s.speed])

/-- SpheroEduAPI.get_speed (lines 501-504). -/
def get_speed (s : ApiState) : ℤ := s.speed

/-- SpheroEduAPI.set_heading (lines 139-144). -/
def set_heading (heading : ℤ) (s : ApiState) : ApiState × List Cmd :=
  let s := { s with heading := heading % 360 }
  (s, [Cmd.rollStart s.heading s.speed])

/-- SpheroEduAPI.stop_roll (lines 133-137): optionally store a new heading,
then send a roll-stop command; note that __speed is not modified. -/
def stop_roll (heading : Option ℤ) (s : ApiState) : ApiState × List Cmd :=
  let s := match heading with
    | some h => { s with heading := h % 360 }
    | none => s
  (s, [Cmd.rollStop s.heading])

/-- SpheroEduAPI.roll (lines 105-116): convert the speed for Mini, clamp and
store it, store heading mod 360 (plus 180 when the converted speed is
negative), send the drive command, sleep, then stop_roll. -/
def roll (toy : ToyModel) (heading speed : ℤ) (s : ApiState) : ApiState × List Cmd :=
  let speed := if toy = .mini then miniSpeed speed else speed
  let s := { s with speed := bound_value (-255) speed 255, heading := heading % 360 }
  let s := if speed < 0 then { s with heading := (s.heading + 180) % 360 } else s
  (s, [Cmd.rollStart s.heading s.speed, Cmd.rollStop s.heading])

/-- SpheroEduAPI.__update_raw_motor (lines 197-202). -/
def update_raw_motor (s : ApiState) : Cmd :=
  Cmd.rawMotorCmd
    (if s.rawLeft < 0 then RawMotorMode.reverse else RawMotorMode.forward) |s.rawLeft|
    (if s.rawRight < 0 then RawMotorMode.reverse else RawMotorMode.forward) |s.rawRight|

/-- SpheroEduAPI.raw_motor (lines 204-222).  The field __raw_motor is the
instance namedtuple('rawMotor', ('left', 'right'))(0, 0) built in __init__
(line 54); namedtuple fields are read-only properties, so the statement
self.__raw_motor.left = bound_value(-255, left, 255) (line 214) raises
AttributeError.  The error occurs after the call
self.set_stabilization(False) (line 213) when stabilization was enabled,
and before any raw-motor command is sent. -/
def raw_motor (toy : ToyModel) (left right : ℤ) (duration : Option ℚ)
    (s : ApiState) : RunOut :=
  let stabilize := s.stabilization
  let sc := if stabilize then set_stabilization toy false s else (s, [])
  { state := sc.1, cmds := sc.2, err := some PyErr.attributeError }

/-- SpheroEduAPI.__stop_all (lines 97-103): zero the speed and re-send if it
was non-zero; then, if either raw-motor power is non-zero, the assignment
self.__raw_motor.left = self.__raw_motor.right = 0 (line 102) raises
AttributeError for the same namedtuple reason as raw_motor. -/
def stop_all (s : ApiState) : RunOut :=
  let sc := if s.speed ≠ 0 then
      ({ s with speed := 0 }, [Cmd.rollStart s.heading 0])
    else (s, [])
  if sc.1.rawLeft ≠ 0 ∨ sc.1.rawRight ≠ 0 then
    { state := sc.1, cmds := sc.2, err := some PyErr.attributeError }
  else
    { state := sc.1, cmds := sc.2, err := none }

/-- SpheroEduAPI.__update_speeds (lines 91-95), the body of one background
keep-alive tick: re-issue the drive command when speed is non-zero, and the
raw-motor command when either raw power is non-zero. -/
def update_speeds (s : ApiState) : List Cmd :=
  (if s.speed ≠ 0 then [Cmd.rollStart s.heading s.speed] else []) ++
  (if s.rawLeft ≠ 0 ∨ s.rawRight ≠ 0 then [update_raw_motor s] else [])

/-- The per-model time-per-revolution constant of spin (lines 156-165):
RVR 1.5, R2D2/R2Q5 0.7, Mini 0.5, Ollie 0.6, default 0.45. -/
def timePerRev : ToyModel → ℚ
  | .rvr => 3/2
  | .r2d2 | .r2q5 => 7/10
  | .mini => 1/2
  | .ollie => 3/5
  | _ => 9/20

/-- The effective duration of spin (line 168):
duration = max(duration, time_pre_rev * abs_angle / 360). -/
def spinDuration (toy : ToyModel) (angle : ℤ) (duration : ℚ) : ℚ :=
  max duration (timePerRev toy * (angle.natAbs : ℚ) / 360)

/-- The target cumulative angle of one spin-loop iteration (line 174):
round(min((now - start) / duration, 1.) * abs_angle). -/
def spinTarget (absAngle : ℤ) (d start t : ℚ) : ℤ :=
  pyRound (min ((t - start) / d) 1 * (absAngle : ℚ))

/-- The while loop of spin (lines 171-176), driven by the successive
time.time() samples `ts` read at line 174.  Each iteration with sample t
computes delta = spinTarget - angle_gone, issues one set_heading update
displacing the heading by delta (in the requested direction), and adds
delta to angle_gone; the loop exits once angle_gone >= absAngle.  Returns
the list of issued deltas and the list of consumed samples, or none when
the samples ran out with the loop still running. -/
def spinRun (absAngle : ℤ) (d start : ℚ) (g : ℤ) :
    List ℚ → Option (List ℤ × List ℚ)
  | [] => if g < absAngle then none else some ([], [])
  | t :: ts =>
    if g < absAngle then
      let δ := spinTarget absAngle d start t - g
      match spinRun absAngle d start (g + δ) ts with
      | some (ds, us) => some (δ :: ds, t :: us)
      | none => none
    else some ([], [])

/-- The effect of the spin loop on the MotionState: each delta is issued via
set_heading(heading + delta) for positive angles, set_heading(heading -
delta) for negative ones (line 175). -/
def spinApplyState (pos : Bool) (s : ApiState) (ds : List ℤ) : ApiState :=
  ds.foldl (fun s δ =>
    (set_heading (if pos then s.heading + δ else s.heading - δ) s).1) s

/-- The fall-detector state of SpheroEduAPI: fields __falling_v,
__last_non_fall, __free_falling, __should_land (lines 60-62). -/
structure FallState where
  fallingV : ℚ
  lastNonFall : ℚ
  freeFalling : Bool
  shouldLand : Bool
  deriving DecidableEq

/-- Initial fall state from __init__ (lines 60-62): __falling_v = 1,
__last_non_fall = time.time() =: t0, both flags False. -/
def initFallState (t0 : ℚ) : FallState :=
  { fallingV := 1, lastNonFall := t0, freeFalling := false, shouldLand := false }

/-- Events fired by one fusion step, plus which branch of the first
conditional was taken (fell = the near-zero acceleration branch). -/
structure FallRecord where
  fell : Bool
  firedFreefall : Bool
  firedLanding : Bool
  deriving DecidableEq

/-- The branch condition of line 417: -.5 < v < .5 when stabilized
(on the smoothed estimate), else -.1 < a < .1 (on the raw sample). -/
def fallCond (stab : Bool) (v a : ℚ) : Prop :=
  match stab with
  | true => -(1/2) < v ∧ v < 1/2
  | false => -(1/10) < a ∧ a < 1/10

instance (stab : Bool) (v a : ℚ) : Decidable (fallCond stab v a) := by
  cases stab <;> simp only [fallCond] <;> infer_instance

/-- The landing condition of line 426: v < -1.1 or v > 1.1 when stabilized,
else — exactly as the source reads — a < -.8 or a > -.8. -/
def landCond (stab : Bool) (v a : ℚ) : Prop :=
  match stab with
  | true => v < -(11/10) ∨ 11/10 < v
  | false => a < -(4/5) ∨ -(4/5) < a

instance (stab : Bool) (v a : ℚ) : Decidable (landCond stab v a) := by
  cases stab <;> simp only [landCond] <;> infer_instance

/-- SpheroEduAPI.__process_falling (lines 414-428) on one sample: raw
vertical acceleration `a` and current time `cur`.  The smoothed estimate is
updated first (line 415); then the fall branch may fire on_freefall when
the condition has held for more than 0.2 time-units and freefall was not
already signalled, while the other branch refreshes __last_non_fall and
clears __free_falling; finally on_landing fires when a landing is pending
and the landing condition (evaluated on the already-updated estimate, or
the raw sample) holds. -/
def process_falling (stab : Bool) (st : FallState) (a cur : ℚ) :
    FallState × FallRecord :=
  let v := (st.fallingV + a * 3) / 4
  let fb : FallState × Bool :=
    if fallCond stab v a then
      if 1/5 < cur - st.lastNonFall ∧ st.freeFalling = false then
        ({ fallingV := v, lastNonFall := st.lastNonFall,
           freeFalling := true, shouldLand := true }, true)
      else ({ st with fallingV := v }, false)
    else
      ({ fallingV := v, lastNonFall := cur,
         freeFalling := false, shouldLand := st.shouldLand }, false)
  if fb.1.shouldLand = true ∧ landCond stab fb.1.fallingV a then
    ({ fb.1 with shouldLand := false },
     { fell := if fallCond stab v a then true else false,
       firedFreefall := fb.2, firedLanding := true })
  else
    (fb.1,
     { fell := if fallCond stab v a then true else false,
       firedFreefall := fb.2, firedLanding := false })

/-- Folding __process_falling over a list of (acceleration, time) samples,
collecting one FallRecord per step. -/
def runFall (stab : Bool) : FallState → List (ℚ × ℚ) → List FallRecord
  | _, [] => []
  | st, p :: rest =>
    let sr := process_falling stab st p.1 p.2
    sr.2 :: runFall stab sr.1 rest

/-- Number of on_freefall firings in a record list. -/
def countFreefall (rs : List FallRecord) : ℕ :=
  (rs.filter (fun r => r.firedFreefall)).length

/-- Number of on_landing firings in a record list. -/
def countLanding (rs : List FallRecord) : ℕ :=
  (rs.filter (fun r => r.firedLanding)).length

/-- The pending-landing credit of a fall state. -/
def landCredit (st : FallState) : ℕ := if st.shouldLand then 1 else 0

/-- The event kinds of sphero_edu.EventType (lines 35-43). -/
inductive EventType where
  | onCollision | onFreefall | onLanding | onGyroMax
  | onCharging | onNotCharging | onIrMessage | onColor
  deriving DecidableEq

/-- The __listeners mapping, a defaultdict(set) (line 65), embedded as an
association list from event kind to the registered callback handles. -/
abbrev ListenerMap := List (EventType × List ℕ)

/-- Dictionary lookup without insertion. -/
def lookupListeners : ListenerMap → EventType → Option (List ℕ)
  | [], _ => none
  | kv :: rest, et => if kv.1 = et then some kv.2 else lookupListeners rest et

/-- Replace the entry of a present key. -/
def setListeners : ListenerMap → EventType → List ℕ → ListenerMap
  | [], et, v => [(et, v)]
  | kv :: rest, et, v =>
    if kv.1 = et then (et, v) :: rest else kv :: setListeners rest et v

/-- del d[k] on the underlying dict: removes the entry when present.  On a
missing key, del raises KeyError even for a defaultdict, because
__missing__ only serves item lookup, not item deletion. -/
def delListeners : ListenerMap → EventType → ListenerMap
  | [], _ => []
  | kv :: rest, et => if kv.1 = et then rest else kv :: delListeners rest et

/-- SpheroEduAPI.register_event (lines 565-576).  Callbacks are embedded as
numeric handles.  The guard `event_type not in EventType` is always false
for a value of the enum type, so it is omitted.  With a callback, the
lookup self.__listeners[event_type] inserts an empty set when missing
(defaultdict __missing__) and the callback is added to the set; with None,
del self.__listeners[event_type] removes the entry or raises KeyError when
the key is absent. -/
def register_event (m : ListenerMap) (et : EventType) (listener : Option ℕ) :
    Except PyErr ListenerMap :=
  match listener with
  | some f =>
    match lookupListeners m et with
    | some fs => .ok (setListeners m et (if f ∈ fs then fs else fs ++ [f]))
    | none => .ok (m ++ [(et, [f])])
  | none =>
    match lookupListeners m et with
    | some _ => .ok (delListeners m et)
    | none => .error PyErr.keyError

/-- SpheroEduAPI.__call_event_listener (lines 561-563): iterating over
self.__listeners[event_type] is an item lookup, so it inserts an empty
entry for a never-seen kind. -/
def call_event_listener (m : ListenerMap) (et : EventType) : ListenerMap :=
  match lookupListeners m et with
  | some _ => m
  | none => m ++ [(et, [])]


/-- The numeric values of the R2D2.Animations IntEnum
(spherov2/toy/r2d2.py, class Animations); note the gaps at 20, 23, 28-30. -/
def r2d2Animations : List ℤ :=
  [0, 1, 2, 3, 4, 5, 6, 7, 8, 9, 10, 11, 12, 13, 14, 15, 16, 17, 18, 19,
   21, 22, 24, 25, 26, 27, 31, 32, 33, 34, 35, 36, 37, 38, 39, 40, 41, 42, 43, 44,
   45, 46, 47, 48, 49, 50, 51, 52, 53, 54, 55]

/-- The numeric values of the R2D2.Audio IntEnum
(spherov2/toy/r2d2.py, class Audio). -/
def r2d2Audio : List ℤ :=
  [1, 32, 63, 94, 125, 156, 187, 218, 235, 254, 258, 264, 268, 272, 279, 288, 296, 301, 309, 330,
   352, 356, 360, 368, 375, 381, 390, 397, 404, 410, 417, 430, 464, 471, 479, 492, 518, 525, 537, 544,
   557, 570, 577, 581, 587, 599, 606, 612, 622, 630, 644, 671, 682, 686, 690, 700, 724, 732, 734, 739,
   743, 747, 753, 757, 761, 764, 787, 792, 802, 813, 825, 831, 836, 859, 867, 874, 888, 896, 902, 916,
   927, 935, 946, 953, 963, 969, 983, 988, 998, 1003, 1010, 1020, 1032, 1040, 1052, 1064, 1077, 1082, 1087, 1092,
   1096, 1102, 1109, 1113, 1118, 1123, 1130, 1135, 1138, 1147, 1150, 1157, 1163, 1170, 1178, 1186, 1192, 1199, 1205, 1213,
   1220, 1230, 1236, 1240, 1250, 1268, 1275, 1281, 1295, 1303, 1308, 1324, 1329, 1347, 1363, 1375, 1384, 1394, 1408, 1432,
   1442, 1463, 1476, 1486, 1494, 1505, 1516, 1523, 1531, 1549, 1558, 1571, 1583, 1592, 1600, 1609, 1623, 1628, 1635, 1642,
   1647, 1653, 1659, 1664, 1669, 1676, 1684, 1690, 1693, 1696, 1698, 1700, 1702, 1704, 1737, 1747, 1756, 1763, 1771, 1784,
   1791, 1809, 1821, 1831, 1835, 1843, 1858, 1867, 1893, 1910, 1915, 1950, 1959, 1966, 1977, 1987, 2002, 2007, 2010, 2019,
   2028, 2039, 2061, 2072, 2080, 2085, 2095, 2105, 2121, 2132, 2143, 2157, 2170, 2174, 2184, 2188, 2198, 2202, 2211, 2221,
   2232, 2241, 2253, 2264, 2276, 2285, 2292, 2307, 2322, 2332, 2344, 2357, 2368, 2377, 2387, 2399, 2413, 2424, 2439, 2452,
   2457, 2463, 2474, 2492, 2509, 2519, 2524, 2535, 2543, 2554, 2562, 2572, 2579, 2586, 2600, 2615, 2633, 2644, 2654, 2662,
   2680, 2691, 2708, 2726, 2730, 2736, 2753, 2767, 2777, 2787, 2797, 2813, 2824, 2828, 2833, 2841, 2856, 2861, 2882, 2893,
   2898, 2904, 2912, 2919, 2935, 2950, 2955, 2970, 3101, 3111, 3115, 3121, 3132, 3136, 3148, 3152, 3157, 3164, 3167, 3172,
   3178, 3191, 3200, 3213, 3219, 3226, 3230, 3233, 3241, 3251, 3258, 3263, 3268, 3274, 3282, 3291, 3302, 3309, 3318, 3326,
   3340, 3353, 3358, 3364, 3369, 3375, 3388, 3394, 3403, 3410, 3422, 3434, 3439, 3446, 3449, 3454, 3460, 3471, 3478, 3484,
   3495, 3518, 3526, 3536, 3543, 3553, 3561, 3570, 3593, 3600, 3608, 3612, 3619, 3632, 3639, 3649, 3661, 3686, 3693, 3703,
   3739, 3755, 3782, 3790, 3797, 3810, 3825, 3864, 3869, 3875, 3891, 3896, 3901, 3907, 3914, 3920, 3925, 3929, 3941, 4021,
   4246, 4568, 4929, 5156, 5315, 5441, 5483, 5513]

/-- SpheroEduAPI.play_animation (lines 229-238), parametric in the model's
Animations attribute: `none` when hasattr(self.__toy, 'Animations') is
false (the whole body is skipped), `some anims` giving the enum's values
otherwise.  An animation outside the catalog raises ValueError before
anything is sent; a valid one first stops all motion (__stop_all under the
update lock) and then sends the animation command. -/
def play_animation (animations : Option (List ℤ)) (animation : ℤ)
    (s : ApiState) : RunOut :=
  match animations with
  | none => { state := s, cmds := [], err := none }
  | some anims =>
    if animation ∈ anims then
      let r := stop_all s
      match r.err with
      | some e => { state := r.state, cmds := r.cmds, err := some e }
      | none => { state := r.state, cmds := r.cmds ++ [Cmd.playAnimationCmd animation],
                  err := none }
    else { state := s, cmds := [], err := some PyErr.valueError }

/-- SpheroEduAPI.play_sound (lines 376-382), parametric in the model's
Audio attribute in the same way as play_animation. -/
def play_sound (sounds : Option (List ℤ)) (sound : ℤ) (s : ApiState) : RunOut :=
  match sounds with
  | none => { state := s, cmds := [], err := none }
  | some snds =>
    if sound ∈ snds then
      { state := s, cmds := [Cmd.playSoundCmd sound], err := none }
    else { state := s, cmds := [], err := some PyErr.valueError }

/-- SpheroEduAPI.set_dome_position (lines 242-245): only R2D2 and R2Q5
receive the clamped head-position command; every other model is silently
ignored (no command, no error). -/
def set_dome_position (toy : ToyModel) (angle : ℚ) : List Cmd :=
  if toy = .r2d2 ∨ toy = .r2q5 then
    [Cmd.headPositionCmd (bound_valueQ (-160) angle 180)]
  else []

/-- The operations of SpheroEduAPI that touch the MotionState or run the
keep-alive tick. -/
inductive MotionOp where
  | opSetSpeed | opSetHeading | opRoll | opStopRoll | opSpin
  | opRawMotor | opBackgroundTick | opPlayAnimation | opSetWaddle
  deriving DecidableEq

/-- Which operations mutate the MotionState, read off from the bodies:
set_speed assigns __speed (line 130), set_heading assigns __heading
(line 143), roll assigns both (lines 110-113), stop_roll assigns __heading
when one is given (line 136), spin mutates __heading through set_heading
(line 175), raw_motor assigns __stabilization and attempts the raw-motor
fields (lines 211-215), play_animation and set_waddle call __stop_all which
assigns __speed (lines 98-102); the background tick only reads. -/
def mutatesMotionState : MotionOp → Bool
  | .opBackgroundTick => false
  | _ => true

/-- Which operations hold the self.__updating lock around their MotionState
access, read off from the bodies: the background tick (line 87), spin
(line 172), play_animation (line 236) and set_waddle (line 261) are inside
`with self.__updating`; set_speed, set_heading, roll, stop_roll and
raw_motor contain no lock acquisition at all. -/
def holdsUpdatingLock : MotionOp → Bool
  | .opSpin | .opBackgroundTick | .opPlayAnimation | .opSetWaddle => true
  | _ => false

/-- The state of the locator distance accumulator: sensor field 'distance'
(line 57) and __last_location (line 59). -/
structure LocState where
  distance : ℝ
  lastLocation : ℝ × ℝ

/-- Initial locator state from __init__: distance 0, __last_location (0, 0). -/
noncomputable def initLocState : LocState := { distance := 0, lastLocation := (0, 0) }

/-- math.hypot, idealised over the reals. -/
noncomputable def hypot (dx dy : ℝ) : ℝ := Real.sqrt (dx ^ 2 + dy ^ 2)

/-- The locator branch of SpheroEduAPI._sensor_data_listener (lines 407-412)
for one locator sample: add the Euclidean distance from __last_location to
the sample, then store the sample as __last_location.  (A notification that
carries no locator update re-reads the stored location and adds
hypot(0, 0) = 0, so only locator samples matter for the total.) -/
noncomputable def locator_step (st : LocState) (p : ℝ × ℝ) : LocState :=
  { distance := st.distance +
      hypot (p.1 - st.lastLocation.1) (p.2 - st.lastLocation.2),
    lastLocation := p }

/-- Ingesting a sequence of locator samples from the initial state. -/
noncomputable def ingest_locators (ps : List (ℝ × ℝ)) : LocState :=
  ps.foldl locator_step initLocState

/-- The quantity named by the specification: the sum of Euclidean distances
between consecutive samples of the list, the first sample contributing
nothing.  Stated from the words of the claim, to be compared with the
accumulator the code computes. -/
noncomputable def pathLength : List (ℝ × ℝ) → ℝ
  | p :: q :: rest => hypot (q.1 - p.1) (q.2 - p.2) + pathLength (q :: rest)
  | _ => 0

/-- User-level operations mutating the ApiState, for reachability arguments.
uSpin over-approximates a spin call by an arbitrary list of issued deltas. -/
inductive UserOp where
  | uSetSpeed (v : ℤ)
  | uSetHeading (v : ℤ)
  | uRoll (h v : ℤ)
  | uStopRoll (h : Option ℤ)
  | uRawMotor (l r : ℤ) (d : Option ℚ)
  | uStopAll
  | uTick
  | uSetStabilization (b : Bool)
  | uSpin (pos : Bool) (ds : List ℤ)

/-- State transition of one user operation (for raw_motor and __stop_all,
the state left behind when the AttributeError propagates). -/
def applyOp (toy : ToyModel) (s : ApiState) : UserOp → ApiState
  | .uSetSpeed v => (set_speed toy v s).1
  | .uSetHeading v => (set_heading v s).1
  | .uRoll h v => (roll toy h v s).1
  | .uStopRoll h => (stop_roll h s).1
  | .uRawMotor l r d => (raw_motor toy l r d s).state
  | .uStopAll => (stop_all s).state
  | .uTick => s
  | .uSetStabilization b => (set_stabilization toy b s).1
  | .uSpin pos ds => spinApplyState pos s ds

/-- Running a list of user operations from a state. -/
def runOps (toy : ToyModel) (s : ApiState) (ops : List UserOp) : ApiState :=
  ops.foldl (applyOp toy) s

/-! Helper lemmas. -/

theorem pyRound_floor_le (q : ℚ) : ⌊q⌋ ≤ pyRound q := by
  unfold pyRound
  split_ifs <;> omega

theorem pyRound_le_floor_add_one (q : ℚ) : pyRound q ≤ ⌊q⌋ + 1 := by
  unfold pyRound
  split_ifs <;> omega

theorem pyRound_le (q : ℚ) : (pyRound q : ℚ) ≤ q + 1/2 := by
  have h1 := Int.floor_le q
  unfold pyRound
  split_ifs <;> push_cast <;> simp only [not_lt] at * <;> linarith

theorem le_pyRound (q : ℚ) : q - 1/2 ≤ (pyRound q : ℚ) := by
  have h2 := Int.lt_floor_add_one q
  unfold pyRound
  split_ifs <;> push_cast <;> simp only [not_lt] at * <;> linarith

theorem pyRound_intCast (n : ℤ) : pyRound (n : ℚ) = n := by
  unfold pyRound
  rw [Int.floor_intCast]
  norm_num

theorem pyRound_mono {p q : ℚ} (h : p ≤ q) : pyRound p ≤ pyRound q := by
  rcases lt_or_eq_of_le (Int.floor_le_floor h) with hf | hf
  · calc pyRound p ≤ ⌊p⌋ + 1 := pyRound_le_floor_add_one p
      _ ≤ ⌊q⌋ := hf
      _ ≤ pyRound q := pyRound_floor_le q
  · have hpq : p - (⌊q⌋ : ℚ) ≤ q - ⌊q⌋ := sub_le_sub_right h _
    unfold pyRound
    rw [hf]
    split_ifs <;> simp only [not_lt] at * <;> first | omega | linarith

theorem spinApplyState_rawLeft (pos : Bool) (ds : List ℤ) : ∀ s : ApiState,
    (spinApplyState pos s ds).rawLeft = s.rawLeft := by
  induction ds with
  | nil => intro s; rfl
  | cons d rest ih => intro s; exact ih _

theorem spinApplyState_rawRight (pos : Bool) (ds : List ℤ) : ∀ s : ApiState,
    (spinApplyState pos s ds).rawRight = s.rawRight := by
  induction ds with
  | nil => intro s; rfl
  | cons d rest ih => intro s; exact ih _

theorem applyOp_rawLeft (toy : ToyModel) (s : ApiState) (op : UserOp) :
    (applyOp toy s op).rawLeft = s.rawLeft := by
  cases op with
  | uRawMotor l r d =>
    simp only [applyOp, raw_motor, set_stabilization]
    split <;> rfl
  | uStopAll =>
    simp only [applyOp, stop_all]
    split
    · split <;> rfl
    · split <;> rfl
  | uSetStabilization b => rfl
  | uSpin pos ds => exact spinApplyState_rawLeft pos ds s
  | uRoll h v => simp only [applyOp, roll]; split <;> split <;> rfl
  | uStopRoll h => cases h <;> rfl
  | _ => rfl

theorem applyOp_rawRight (toy : ToyModel) (s : ApiState) (op : UserOp) :
    (applyOp toy s op).rawRight = s.rawRight := by
  cases op with
  | uRawMotor l r d =>
    simp only [applyOp, raw_motor, set_stabilization]
    split <;> rfl
  | uStopAll =>
    simp only [applyOp, stop_all]
    split
    · split <;> rfl
    · split <;> rfl
  | uSetStabilization b => rfl
  | uSpin pos ds => exact spinApplyState_rawRight pos ds s
  | uRoll h v => simp only [applyOp, roll]; split <;> split <;> rfl
  | uStopRoll h => cases h <;> rfl
  | _ => rfl

theorem runOps_rawLeft (toy : ToyModel) (ops : List UserOp) : ∀ s : ApiState,
    (runOps toy s ops).rawLeft = s.rawLeft := by
  induction ops with
  | nil => intro s; rfl
  | cons op rest ih =>
    intro s
    calc (runOps toy (applyOp toy s op) rest).rawLeft
        = (applyOp toy s op).rawLeft := ih _
      _ = s.rawLeft := applyOp_rawLeft toy s op

theorem runOps_rawRight (toy : ToyModel) (ops : List UserOp) : ∀ s : ApiState,
    (runOps toy s ops).rawRight = s.rawRight := by
  induction ops with
  | nil => intro s; rfl
  | cons op rest ih =>
    intro s
    calc (runOps toy (applyOp toy s op) rest).rawRight
        = (applyOp toy s op).rawRight := ih _
      _ = s.rawRight := applyOp_rawRight toy s op

/-! Claim theorems. -/

/-- Claim C6, counterexample: the claim states that every operation mutating
the MotionState holds the self.__updating mutual-exclusion guard; it is
false, because set_speed mutates the MotionState with no lock acquisition
in its body. -/
theorem C6_counterexample :
    ¬ (∀ op : MotionOp, mutatesMotionState op = true → holdsUpdatingLock op = true) :=
  fun h => absurd (h MotionOp.opSetSpeed rfl) (by decide)

/-- Claim C6, amended: exactly the background tick, spin, play_animation and
set_waddle hold the self.__updating lock; every operation other than the
tick mutates the MotionState, so in particular set_speed, set_heading,
roll, stop_roll and raw_motor mutate it without the lock. -/
theorem C6_amended_theorem (op : MotionOp) :
    (holdsUpdatingLock op = true ↔
      (op = MotionOp.opSpin ∨ op = MotionOp.opBackgroundTick ∨
       op = MotionOp.opPlayAnimation ∨ op = MotionOp.opSetWaddle)) ∧
    (mutatesMotionState op = true ↔ op ≠ MotionOp.opBackgroundTick) := by
  cases op <;> exact ⟨by decide, by decide⟩

/-- Claim C7, counterexample: removing all listeners of a kind that was
never registered raises KeyError (del on a missing defaultdict key),
refuting the claim that it is a no-op that cannot fail. -/
theorem C7_counterexample :
    register_event [] EventType.onCollision none = Except.error PyErr.keyError := rfl

/-- Claim C7, amended: register_event(kind, None) raises KeyError exactly
when the kind has no entry in the listener mapping; when an entry exists
(placed by a registration, or by event dispatch which creates an empty
entry through item lookup) the entry is removed without error. -/
theorem C7_amended_theorem (m : ListenerMap) (et : EventType) :
    (lookupListeners m et = none →
      register_event m et none = Except.error PyErr.keyError) ∧
    (∀ fs, lookupListeners m et = some fs →
      register_event m et none = Except.ok (delListeners m et)) ∧
    register_event (call_event_listener [] et) et none = Except.ok [] := by
  refine ⟨fun h => ?_, fun fs h => ?_, ?_⟩
  · simp [register_event, h]
  · simp [register_event, h]
  · cases et <;> rfl

/-- Witness for C7_amended_theorem at concrete inputs. -/
theorem C7_witness :
    register_event [] EventType.onFreefall none = Except.error PyErr.keyError ∧
    register_event [(EventType.onFreefall, [5])] EventType.onFreefall none =
      Except.ok [] := by
  constructor
  · exact (C7_amended_theorem [] EventType.onFreefall).1 rfl
  · have h := (C7_amended_theorem [(EventType.onFreefall, [5])]
      EventType.onFreefall).2.1 [5] rfl
    simpa using h

/-- Claim C9: raw_motor always raises AttributeError at the namedtuple
field assignment, for every toy, every argument and every state; the
MotionState speed and raw powers are left unchanged, stabilization has
already been disabled when it was previously enabled and is not restored,
and the only command possibly sent before the error is the
stabilization-off command — never a raw-motor command. -/
theorem C9_theorem (toy : ToyModel) (left right : ℤ) (duration : Option ℚ)
    (s : ApiState) :
    (raw_motor toy left right duration s).err = some PyErr.attributeError ∧
    (raw_motor toy left right duration s).state.speed = s.speed ∧
    (raw_motor toy left right duration s).state.rawLeft = s.rawLeft ∧
    (raw_motor toy left right duration s).state.rawRight = s.rawRight ∧
    (s.stabilization = true →
      (raw_motor toy left right duration s).state.stabilization = false) ∧
    (∀ c ∈ (raw_motor toy left right duration s).cmds,
      c = Cmd.stabilizationCmd false) := by
  refine ⟨rfl, ?_, ?_, ?_, ?_, ?_⟩ <;>
    simp only [raw_motor, set_stabilization] <;>
    by_cases h : s.stabilization <;>
    simp [h] <;>
    split <;> simp

/-- Witness for C9_theorem at concrete inputs. -/
theorem C9_witness :
    (raw_motor ToyModel.sphero 255 255 (some 1) initState).state.stabilization
      = false :=
  (C9_theorem ToyModel.sphero 255 255 (some 1) initState).2.2.2.2.1 rfl

/-- Claim C10: on a Mini, set_speed(0) and roll(.., 0, ..) store the
converted target speed round((0 - 126) * 2 / 3) = -84 instead of 0, so
get_speed returns -84 and the keep-alive tick keeps re-issuing drive
commands; on any other model set_speed(0) stores 0. -/
theorem C10_theorem (s : ApiState) (toy : ToyModel) (hm : toy ≠ ToyModel.mini) :
    (set_speed ToyModel.mini 0 s).1.speed = -84 ∧
    (roll ToyModel.mini 0 0 s).1.speed = -84 ∧
    get_speed (set_speed ToyModel.mini 0 s).1 = -84 ∧
    update_speeds (set_speed ToyModel.mini 0 s).1 ≠ [] ∧
    (set_speed toy 0 s).1.speed = 0 := by
  have hms : miniSpeed 0 = -84 := by
    have harg : (((0 : ℤ) : ℚ) - 126) * 2 / 3 = ((-84 : ℤ) : ℚ) := by norm_num
    unfold miniSpeed
    rw [if_neg (by decide), harg, pyRound_intCast]
  have hb : bound_value (-255) (-84) 255 = -84 := by decide
  have hneg : miniSpeed 0 < 0 := by rw [hms]; decide
  have h1 : (set_speed ToyModel.mini 0 s).1.speed = -84 := by
    simp [set_speed, hms, hb]
  refine ⟨h1, ?_, h1, ?_, ?_⟩
  · simp [roll, hms, hb, hneg]
  · simp only [update_speeds, h1]
    intro hcontra
    exact absurd hcontra (by simp)
  · simp [set_speed, hm, bound_value]

/-- Witness for C10_theorem at concrete inputs. -/
theorem C10_witness :
    (set_speed ToyModel.mini 0 initState).1.speed = -84 ∧
    (set_speed ToyModel.sphero 0 initState).1.speed = 0 :=
  ⟨(C10_theorem initState ToyModel.sphero (by decide)).1,
   (C10_theorem initState ToyModel.sphero (by decide)).2.2.2.2⟩

/-- Claim C2, counterexample: from the initial state, after set_speed(100)
there is an active target speed of 100; the call raw_motor(255, 255, 1)
does not zero it and does not complete — it raises AttributeError with the
speed still 100 and stabilization left disabled — refuting both the
mutual-exclusion direction raw-motor-clears-speed and the
post-duration-completes-at-rest part of the claim. -/
theorem C2_counterexample :
    (set_speed ToyModel.sphero 100 initState).1.speed = 100 ∧
    (set_speed ToyModel.sphero 100 initState).1.stabilization = true ∧
    (raw_motor ToyModel.sphero 255 255 (some 1)
      (set_speed ToyModel.sphero 100 initState).1).err = some PyErr.attributeError ∧
    (raw_motor ToyModel.sphero 255 255 (some 1)
      (set_speed ToyModel.sphero 100 initState).1).state.speed = 100 ∧
    (raw_motor ToyModel.sphero 255 255 (some 1)
      (set_speed ToyModel.sphero 100 initState).1).state.stabilization = false ∧
    ¬ ((raw_motor ToyModel.sphero 255 255 (some 1)
          (set_speed ToyModel.sphero 100 initState).1).err = none ∧
       (raw_motor ToyModel.sphero 255 255 (some 1)
          (set_speed ToyModel.sphero 100 initState).1).state.speed = 0) := by
  decide

/-- Claim C2, amended: in every state reachable from the initial state by
user operations both raw-motor powers are 0 (raw_motor always raises
AttributeError before assigning them), so raw-motor power and target speed
are never simultaneously non-zero; raw_motor never completes and leaves
the target speed unchanged rather than zeroing it; and set_speed leaves
the raw-motor powers unchanged rather than zeroing them. -/
theorem C2_amended_theorem (toy : ToyModel) (ops : List UserOp) (l r v : ℤ)
    (d : Option ℚ) (t : ApiState) :
    (runOps toy initState ops).rawLeft = 0 ∧
    (runOps toy initState ops).rawRight = 0 ∧
    (raw_motor toy l r d (runOps toy initState ops)).err =
      some PyErr.attributeError ∧
    (raw_motor toy l r d (runOps toy initState ops)).state.speed =
      (runOps toy initState ops).speed ∧
    (set_speed toy v t).1.rawLeft = t.rawLeft ∧
    (set_speed toy v t).1.rawRight = t.rawRight := by
  refine ⟨runOps_rawLeft toy ops initState, runOps_rawRight toy ops initState,
    rfl, ?_, rfl, rfl⟩
  simp only [raw_motor, set_stabilization]
  split <;> rfl

/-- Claim C8: an operation the model does not support at all is silently
ignored — set_dome_position on a non-droid sends nothing and raises
nothing, play_animation and play_sound do nothing when the model lacks the
attribute — while an enum value outside the model's catalog raises
ValueError, and a valid value on a supporting model raises no error.  The
concrete R2D2 catalogs from the source witness both sides: animation 0 is
valid and 20 is a gap in the Animations enum; sound 1 is valid and 2 is
not an Audio value. -/
theorem C8_theorem (toy : ToyModel) (angle : ℚ) (anims sounds : List ℤ)
    (a snd : ℤ) (s : ApiState) (hraw : s.rawLeft = 0 ∧ s.rawRight = 0) :
    (toy ≠ ToyModel.r2d2 → toy ≠ ToyModel.r2q5 →
      set_dome_position toy angle = []) ∧
    play_animation none a s = { state := s, cmds := [], err := none } ∧
    (a ∉ anims → play_animation (some anims) a s =
      { state := s, cmds := [], err := some PyErr.valueError }) ∧
    (a ∈ anims → (play_animation (some anims) a s).err = none) ∧
    play_sound none snd s = { state := s, cmds := [], err := none } ∧
    (snd ∉ sounds → play_sound (some sounds) snd s =
      { state := s, cmds := [], err := some PyErr.valueError }) ∧
    (snd ∈ sounds → (play_sound (some sounds) snd s).err = none) ∧
    ((20 : ℤ) ∉ r2d2Animations ∧ (0 : ℤ) ∈ r2d2Animations ∧
     (1 : ℤ) ∈ r2d2Audio ∧ (2 : ℤ) ∉ r2d2Audio) := by
  obtain ⟨hl, hr⟩ := hraw
  have hstop : (stop_all s).err = none := by
    unfold stop_all
    split
    · rw [if_neg]
      simp [hl, hr]
    · rw [if_neg]
      simp [hl, hr]
  refine ⟨?_, rfl, ?_, ?_, rfl, ?_, ?_, by decide⟩
  · intro h1 h2
    simp [set_dome_position, h1, h2]
  · intro h
    simp [play_animation, h]
  · intro h
    simp only [play_animation, if_pos h]
    rw [hstop]
  · intro h
    simp [play_sound, h]
  · intro h
    simp [play_sound, h]

/-- Witness for C8_theorem at concrete inputs. -/
theorem C8_witness :
    set_dome_position ToyModel.bolt 45 = [] ∧
    (play_animation (some r2d2Animations) 0 initState).err = none ∧
    play_animation (some r2d2Animations) 20 initState =
      { state := initState, cmds := [], err := some PyErr.valueError } ∧
    (play_sound (some r2d2Audio) 1 initState).err = none := by
  have h := C8_theorem ToyModel.bolt 45 r2d2Animations r2d2Audio 0 1 initState
    ⟨rfl, rfl⟩
  have h20 := C8_theorem ToyModel.bolt 45 r2d2Animations r2d2Audio 20 1 initState
    ⟨rfl, rfl⟩
  exact ⟨h.1 (by decide) (by decide), h.2.2.2.1 (by decide),
    h20.2.2.1 (by decide), h.2.2.2.2.2.2.1 (by decide)⟩

theorem foldl_locator_distance (ps : List (ℝ × ℝ)) : ∀ (d : ℝ) (p : ℝ × ℝ),
    (ps.foldl locator_step { distance := d, lastLocation := p }).distance =
      d + pathLength (p :: ps) := by
  induction ps with
  | nil =>
    intro d p
    simp [pathLength]
  | cons q rest ih =>
    intro d p
    have step : locator_step { distance := d, lastLocation := p } q =
        { distance := d + hypot (q.1 - p.1) (q.2 - p.2), lastLocation := q } := rfl
    calc (List.foldl locator_step
            { distance := d, lastLocation := p } (q :: rest)).distance
        = (List.foldl locator_step
            { distance := d + hypot (q.1 - p.1) (q.2 - p.2), lastLocation := q }
            rest).distance := by rw [List.foldl_cons, step]
      _ = d + hypot (q.1 - p.1) (q.2 - p.2) + pathLength (q :: rest) := ih _ _
      _ = d + pathLength (p :: q :: rest) := by rw [pathLength]; ring

/-- Claim C1, counterexample: the very first locator sample does not
contribute zero.  With the single sample (3, 4) the code accumulates
hypot(3 - 0, 4 - 0) = 5 — the distance from the initial __last_location
(0, 0) — while the claimed sum of consecutive distances over the samples
alone is 0. -/
theorem C1_counterexample :
    (ingest_locators [(3, 4)]).distance = 5 ∧
    pathLength [(3, 4)] = 0 ∧
    (ingest_locators [(3, 4)]).distance ≠ pathLength [(3, 4)] := by
  have h5 : (ingest_locators [(3, 4)]).distance = 5 := by
    show (0 : ℝ) + hypot (3 - 0) (4 - 0) = 5
    have : ((3 : ℝ) - 0) ^ 2 + ((4 : ℝ) - 0) ^ 2 = 5 ^ 2 := by norm_num
    rw [hypot, this, Real.sqrt_sq (by norm_num : (0:ℝ) ≤ 5)]
    norm_num
  refine ⟨h5, rfl, ?_⟩
  rw [h5]
  show (5 : ℝ) ≠ 0
  norm_num

/-- Claim C1, amended: the accumulated distance equals the sum of Euclidean
distances between consecutive points of the sample sequence prefixed with
the initial location (0, 0) — equivalently, the first sample contributes
its distance from the origin (0, 0) rather than zero, and every later
sample contributes the distance from its predecessor. -/
theorem C1_amended_theorem (ps : List (ℝ × ℝ)) :
    (ingest_locators ps).distance = pathLength ((0, 0) :: ps) := by
  have h := foldl_locator_distance ps 0 (0, 0)
  simpa [ingest_locators, initLocState] using h

/-- Claim C3 is wrong about the unstabilized landing threshold because the
code itself is: line 426 reads `a < -.8 or a > -.8` where the symmetric
thresholds elsewhere (±1.1 stabilized landing, ±0.5 and ±0.1 resting) and
the claimed ±0.8 make clear `a > .8` was intended, so the condition holds
for every a other than exactly -0.8.  Evaluating the embedded step: with
stabilization disabled, from the initial fall state (t0 = 0) a single
sample a = 0 at time 0.3 fires on_freefall and then on_landing in the same
step, although the magnitude of the raw sample, 0, does not exceed 0.8. -/
theorem C3_code_eval :
    (runFall false (initFallState 0) [(0, 3/10)]).map
        (fun r => (r.firedFreefall, r.firedLanding)) = [(true, true)] ∧
    |(0 : ℚ)| < 4/5 := by
  constructor
  · norm_num [runFall, process_falling, initFallState, fallCond, landCond]
  · norm_num

theorem countFreefall_cons (r : FallRecord) (rs : List FallRecord) :
    countFreefall (r :: rs) =
      (if r.firedFreefall then 1 else 0) + countFreefall rs := by
  simp only [countFreefall, List.filter_cons]
  split <;> simp [Nat.add_comm]

theorem countLanding_cons (r : FallRecord) (rs : List FallRecord) :
    countLanding (r :: rs) =
      (if r.firedLanding then 1 else 0) + countLanding rs := by
  simp only [countLanding, List.filter_cons]
  split <;> simp [Nat.add_comm]

theorem process_falling_credit (stab : Bool) (st : FallState) (a cur : ℚ) :
    (if (process_falling stab st a cur).2.firedLanding then 1 else 0) +
      landCredit (process_falling stab st a cur).1 ≤
    (if (process_falling stab st a cur).2.firedFreefall then 1 else 0) +
      landCredit st := by
  simp only [process_falling, landCredit]
  split_ifs <;> simp_all <;> omega

theorem runFall_credit (stab : Bool) (inputs : List (ℚ × ℚ)) :
    ∀ st : FallState,
    countLanding (runFall stab st inputs) ≤
      countFreefall (runFall stab st inputs) + landCredit st := by
  induction inputs with
  | nil => intro st; simp [runFall, countLanding, countFreefall]
  | cons p rest ih =>
    intro st
    have hstep := process_falling_credit stab st p.1 p.2
    have hrest := ih (process_falling stab st p.1 p.2).1
    simp only [runFall, countLanding_cons, countFreefall_cons]
    omega

theorem runFall_take (stab : Bool) (inputs : List (ℚ × ℚ)) :
    ∀ (st : FallState) (n : ℕ),
    (runFall stab st inputs).take n = runFall stab st (inputs.take n) := by
  induction inputs with
  | nil => intro st n; simp [runFall]
  | cons p rest ih =>
    intro st n
    cases n with
    | zero => simp [runFall]
    | succ m => simp [runFall, List.take_succ_cons, ih]

theorem process_falling_keeps_freeFalling (stab : Bool) (st : FallState)
    (a cur : ℚ) (hff : st.freeFalling = true)
    (hfell : (process_falling stab st a cur).2.fell = true) :
    (process_falling stab st a cur).1.freeFalling = true ∧
      (process_falling stab st a cur).2.firedFreefall = false := by
  simp only [process_falling] at *
  split_ifs at * <;> simp_all

theorem process_falling_fired_freeFalling (stab : Bool) (st : FallState)
    (a cur : ℚ)
    (hf : (process_falling stab st a cur).2.firedFreefall = true) :
    (process_falling stab st a cur).1.freeFalling = true := by
  simp only [process_falling] at *
  split_ifs at * <;> simp_all

theorem runFall_seg_zero (stab : Bool) (seg : List (ℚ × ℚ)) :
    ∀ st : FallState, st.freeFalling = true →
    (∀ rec ∈ runFall stab st seg, rec.fell = true) →
    countFreefall (runFall stab st seg) = 0 := by
  induction seg with
  | nil => intro st _ _; simp [runFall, countFreefall]
  | cons p rest ih =>
    intro st hff hall
    have hfell : (process_falling stab st p.1 p.2).2.fell = true := by
      apply hall
      simp [runFall]
    obtain ⟨hff1, hnof⟩ :=
      process_falling_keeps_freeFalling stab st p.1 p.2 hff hfell
    have hrest := ih (process_falling stab st p.1 p.2).1 hff1 (by
      intro rec hrec
      apply hall
      simp only [runFall, List.mem_cons]
      exact Or.inr hrec)
    simp only [runFall, countFreefall_cons, hnof, hrest]
    simp

theorem runFall_seg_le_one (stab : Bool) (seg : List (ℚ × ℚ)) :
    ∀ st : FallState,
    (∀ rec ∈ runFall stab st seg, rec.fell = true) →
    countFreefall (runFall stab st seg) ≤ 1 := by
  induction seg with
  | nil => intro st _; simp [runFall, countFreefall]
  | cons p rest ih =>
    intro st hall
    have htail : ∀ rec ∈ runFall stab (process_falling stab st p.1 p.2).1 rest,
        rec.fell = true := by
      intro rec hrec
      apply hall
      simp only [runFall, List.mem_cons]
      exact Or.inr hrec
    by_cases hf : (process_falling stab st p.1 p.2).2.firedFreefall = true
    · have hff1 := process_falling_fired_freeFalling stab st p.1 p.2 hf
      have hzero := runFall_seg_zero stab rest
        (process_falling stab st p.1 p.2).1 hff1 htail
      simp only [runFall, countFreefall_cons, hf, hzero]
      simp
    · have hrest := ih (process_falling stab st p.1 p.2).1 htail
      simp only [Bool.not_eq_true] at hf
      simp only [runFall, countFreefall_cons, hf]
      simpa using hrest

/-- Claim C4: over any run of fusion steps from the initial fall state,
on_landing never outnumbers on_freefall in any prefix — so landing fires
at most once per freefall and never before a corresponding freefall — and
within any contiguous stretch of steps that all take the
falling-condition branch (a continuous non-resting interval, from any
intermediate state) on_freefall fires at most once. -/
theorem C4_theorem (stab : Bool) (t0 : ℚ) (inputs : List (ℚ × ℚ)) :
    (∀ n : ℕ,
      countLanding ((runFall stab (initFallState t0) inputs).take n) ≤
        countFreefall ((runFall stab (initFallState t0) inputs).take n)) ∧
    (∀ (st : FallState) (seg : List (ℚ × ℚ)),
      (∀ rec ∈ runFall stab st seg, rec.fell = true) →
      countFreefall (runFall stab st seg) ≤ 1) := by
  constructor
  · intro n
    rw [runFall_take]
    have h := runFall_credit stab (inputs.take n) (initFallState t0)
    simpa [landCredit, initFallState] using h
  · intro st seg h
    exact runFall_seg_le_one stab seg st h

/-- Witness for C4_theorem at concrete inputs. -/
theorem C4_witness :
    countFreefall (runFall true (initFallState 0) [(0, 1)]) ≤ 1 :=
  (C4_theorem true 0 [(0, 1)]).2 (initFallState 0) [(0, 1)] (by
    norm_num [runFall, process_falling, initFallState, fallCond, landCond])

theorem spinTarget_le (A : ℤ) (hA : 0 ≤ A) (d start t : ℚ) :
    spinTarget A d start t ≤ A := by
  have hA0 : (0:ℚ) ≤ (A : ℚ) := by exact_mod_cast hA
  have harg : min ((t - start) / d) 1 * (A : ℚ) ≤ (A : ℚ) := by
    have h1 : min ((t - start) / d) 1 ≤ 1 := min_le_right _ _
    nlinarith
  have hle := pyRound_le (min ((t - start) / d) 1 * (A : ℚ))
  have h2 : (spinTarget A d start t : ℚ) < ((A + 1 : ℤ) : ℚ) := by
    unfold spinTarget
    push_cast
    linarith
  have h3 : spinTarget A d start t < A + 1 := by exact_mod_cast h2
  omega

theorem spinTarget_nonneg (A : ℤ) (hA : 0 ≤ A) (d start t : ℚ) (hd : 0 < d)
    (ht : start ≤ t) : 0 ≤ spinTarget A d start t := by
  have h0 : (0:ℚ) ≤ (t - start) / d := div_nonneg (by linarith) (le_of_lt hd)
  have hmin : (0:ℚ) ≤ min ((t - start) / d) 1 := le_min h0 (by norm_num)
  have harg : (0:ℚ) ≤ min ((t - start) / d) 1 * (A : ℚ) :=
    mul_nonneg hmin (by exact_mod_cast hA)
  have hf : (0:ℤ) ≤ ⌊min ((t - start) / d) 1 * (A : ℚ)⌋ := Int.floor_nonneg.mpr harg
  unfold spinTarget
  exact le_trans hf (pyRound_floor_le _)

theorem spinTarget_mono (A : ℤ) (hA : 0 ≤ A) (d start : ℚ) (hd : 0 < d)
    {t u : ℚ} (h : t ≤ u) : spinTarget A d start t ≤ spinTarget A d start u := by
  unfold spinTarget
  apply pyRound_mono
  have hA0 : (0:ℚ) ≤ (A : ℚ) := by exact_mod_cast hA
  apply mul_le_mul_of_nonneg_right _ hA0
  apply min_le_min _ le_rfl
  exact div_le_div_of_nonneg_right (by linarith) (le_of_lt hd)


theorem spinTarget_saturate (A : ℤ) (hA : 0 ≤ A) (d start t : ℚ) (hd : 0 < d)
    (ht : start + d ≤ t) : spinTarget A d start t = A := by
  have h1 : (1:ℚ) ≤ (t - start) / d := by
    rw [le_div_iff₀ hd]
    linarith
  have hmin : min ((t - start) / d) 1 = 1 := min_eq_right h1
  unfold spinTarget
  rw [hmin, one_mul]
  exact pyRound_intCast A

theorem spinRun_done (A : ℤ) (d start : ℚ) (g : ℤ) (ts : List ℚ)
    (h : ¬ g < A) : spinRun A d start g ts = some ([], []) := by
  cases ts <;> simp [spinRun, h]

theorem spinRun_sum (A : ℤ) (hA : 0 ≤ A) (d start : ℚ) (ts : List ℚ) :
    ∀ (g : ℤ) (ds : List ℤ) (us : List ℚ), g ≤ A →
    spinRun A d start g ts = some (ds, us) → g + ds.sum = A := by
  induction ts with
  | nil =>
    intro g ds us hg h
    by_cases hlt : g < A
    · simp [spinRun, hlt] at h
    · simp [spinRun, hlt] at h
      obtain ⟨rfl, rfl⟩ := h
      simp
      omega
  | cons t ts ih =>
    intro g ds us hg h
    by_cases hlt : g < A
    · simp only [spinRun, if_pos hlt] at h
      cases hrec : spinRun A d start (g + (spinTarget A d start t - g)) ts with
      | none => rw [hrec] at h; simp at h
      | some pair =>
        obtain ⟨ds1, us1⟩ := pair
        rw [hrec] at h
        simp at h
        obtain ⟨rfl, rfl⟩ := h
        have hg2 : g + (spinTarget A d start t - g) ≤ A := by
          have := spinTarget_le A hA d start t
          omega
        have hsum := ih _ ds1 us1 hg2 hrec
        simp only [List.sum_cons]
        omega
    · rw [spinRun_done A d start g _ hlt] at h
      simp at h
      obtain ⟨rfl, rfl⟩ := h
      simp
      omega

theorem spinRun_isSome (A : ℤ) (hA : 0 ≤ A) (d start : ℚ) (hd : 0 < d)
    (ts : List ℚ) : ∀ g : ℤ, g ≤ A → (∃ t ∈ ts, start + d ≤ t) →
    (spinRun A d start g ts).isSome := by
  induction ts with
  | nil =>
    intro g hg hex
    obtain ⟨t, ht, _⟩ := hex
    simp at ht
  | cons t ts ih =>
    intro g hg hex
    by_cases hlt : g < A
    · simp only [spinRun, if_pos hlt]
      obtain ⟨u, hu, hud⟩ := hex
      rcases List.mem_cons.mp hu with rfl | humem
      · have hsat := spinTarget_saturate A hA d start u hd hud
        have hstop : ¬ (g + (spinTarget A d start u - g)) < A := by omega
        rw [spinRun_done A d start _ ts hstop]
        rfl
      · have hgs : g + (spinTarget A d start t - g) ≤ A := by
          have := spinTarget_le A hA d start t
          omega
        have hsome := ih _ hgs ⟨u, humem, hud⟩
        cases hrec : spinRun A d start (g + (spinTarget A d start t - g)) ts with
        | none => rw [hrec] at hsome; simp at hsome
        | some pair =>
          obtain ⟨ds1, us1⟩ := pair
          rfl
    · rw [spinRun_done A d start g _ hlt]
      rfl

theorem spinRun_nonneg (A : ℤ) (hA : 0 ≤ A) (d start : ℚ) (hd : 0 < d)
    (ts : List ℚ) : ∀ (g : ℤ) (ds : List ℤ) (us : List ℚ),
    List.Sorted (· ≤ ·) ts → (∀ t ∈ ts, start ≤ t) →
    (∀ t ∈ ts, g ≤ spinTarget A d start t) →
    spinRun A d start g ts = some (ds, us) → ∀ δ ∈ ds, 0 ≤ δ := by
  induction ts with
  | nil =>
    intro g ds us _ _ _ h δ hδ
    by_cases hlt : g < A
    · simp [spinRun, hlt] at h
    · simp [spinRun, hlt] at h
      obtain ⟨rfl, rfl⟩ := h
      simp at hδ
  | cons t ts ih =>
    intro g ds us hsort hstart hbound h δ hδ
    by_cases hlt : g < A
    · simp only [spinRun, if_pos hlt] at h
      cases hrec : spinRun A d start (g + (spinTarget A d start t - g)) ts with
      | none => rw [hrec] at h; simp at h
      | some pair =>
        obtain ⟨ds1, us1⟩ := pair
        rw [hrec] at h
        simp at h
        obtain ⟨rfl, rfl⟩ := h
        have hgt : g ≤ spinTarget A d start t := hbound t (List.mem_cons_self t ts)
        rcases List.mem_cons.mp hδ with rfl | hmem
        · omega
        · have hsimpl : g + (spinTarget A d start t - g) = spinTarget A d start t := by
            ring
          rw [hsimpl] at hrec
          refine ih (spinTarget A d start t) ds1 us1
            (List.sorted_cons.mp hsort).2
            (fun u hu => hstart u (List.mem_cons_of_mem t hu))
            (fun u hu => spinTarget_mono A hA d start hd
              ((List.sorted_cons.mp hsort).1 u hu))
            hrec δ hmem
    · rw [spinRun_done A d start g _ hlt] at h
      simp at h
      obtain ⟨rfl, rfl⟩ := h
      simp at hδ

theorem spinRun_used_ne_nil (A : ℤ) (d start : ℚ) (g : ℤ) (ts : List ℚ)
    (ds : List ℤ) (us : List ℚ) (hlt : g < A)
    (h : spinRun A d start g ts = some (ds, us)) : us ≠ [] := by
  cases ts with
  | nil => simp [spinRun, hlt] at h
  | cons t ts =>
    simp only [spinRun, if_pos hlt] at h
    cases hrec : spinRun A d start (g + (spinTarget A d start t - g)) ts with
    | none => rw [hrec] at h; simp at h
    | some pair =>
      obtain ⟨ds1, us1⟩ := pair
      rw [hrec] at h
      simp at h
      obtain ⟨rfl, rfl⟩ := h
      simp

theorem spinRun_nil_used (A : ℤ) (d start : ℚ) (g : ℤ) (ts : List ℚ)
    (ds : List ℤ) (h : spinRun A d start g ts = some (ds, [])) : A ≤ g := by
  by_cases hlt : g < A
  · exact absurd rfl (spinRun_used_ne_nil A d start g ts ds [] hlt h)
  · omega

theorem spinRun_last (A : ℤ) (hA : 0 ≤ A) (d start : ℚ) (ts : List ℚ) :
    ∀ (g : ℤ) (ds : List ℤ) (us : List ℚ), g ≤ A →
    spinRun A d start g ts = some (ds, us) →
    ∀ tl, us.getLast? = some tl → spinTarget A d start tl = A := by
  induction ts with
  | nil =>
    intro g ds us hg h tl htl
    by_cases hlt : g < A
    · simp [spinRun, hlt] at h
    · simp [spinRun, hlt] at h
      obtain ⟨rfl, rfl⟩ := h
      simp at htl
  | cons t ts ih =>
    intro g ds us hg h tl htl
    by_cases hlt : g < A
    · simp only [spinRun, if_pos hlt] at h
      cases hrec : spinRun A d start (g + (spinTarget A d start t - g)) ts with
      | none => rw [hrec] at h; simp at h
      | some pair =>
        obtain ⟨ds1, us1⟩ := pair
        rw [hrec] at h
        simp at h
        obtain ⟨rfl, rfl⟩ := h
        cases us1 with
        | nil =>
          simp at htl
          have hge : A ≤ g + (spinTarget A d start t - g) :=
            spinRun_nil_used A d start _ ts ds1 hrec
          have hle := spinTarget_le A hA d start t
          subst htl
          omega
        | cons u us2 =>
          rw [List.getLast?_cons_cons] at htl
          have hgs : g + (spinTarget A d start t - g) ≤ A := by
            have := spinTarget_le A hA d start t
            omega
          exact ih _ ds1 (u :: us2) hgs hrec tl htl
    · rw [spinRun_done A d start g _ hlt] at h
      simp at h
      obtain ⟨rfl, rfl⟩ := h
      simp at htl

/-- Claim C5: for spin with non-zero angle, the effective duration is
raised to at least time_per_revolution * abs(angle) / 360 for the model;
whenever the stepping loop terminates, the issued heading displacements
are all in the requested direction and sum to exactly abs(angle) — never a
partial displacement — and the time sample consumed by the final update is
at least duration * (2*abs(angle) - 1) / (2*abs(angle)) past the start
(in particular at least 0.45 time-units for spin(360, 1.0) on the default
0.45-time-per-revolution model); and the loop does terminate once a time
sample at least duration past the start is read. -/
theorem C5_theorem (toy : ToyModel) (angle : ℤ) (hang : angle ≠ 0)
    (duration start : ℚ) (ts : List ℚ)
    (hsort : List.Sorted (· ≤ ·) ts) (hstart : ∀ t ∈ ts, start ≤ t) :
    timePerRev toy * (angle.natAbs : ℚ) / 360 ≤ spinDuration toy angle duration ∧
    (∀ (ds : List ℤ) (us : List ℚ),
      spinRun (angle.natAbs : ℤ) (spinDuration toy angle duration) start 0 ts =
        some (ds, us) →
      ds.sum = (angle.natAbs : ℤ) ∧ (∀ δ ∈ ds, 0 ≤ δ) ∧ us ≠ [] ∧
      (∀ tl, us.getLast? = some tl →
        spinDuration toy angle duration * (2 * (angle.natAbs : ℚ) - 1) /
          (2 * (angle.natAbs : ℚ)) ≤ tl - start)) ∧
    ((∃ t ∈ ts, start + spinDuration toy angle duration ≤ t) →
      (spinRun (angle.natAbs : ℤ) (spinDuration toy angle duration) start 0
        ts).isSome) := by
  have hnz : angle.natAbs ≠ 0 := Int.natAbs_ne_zero.mpr hang
  have hA1 : 1 ≤ (angle.natAbs : ℤ) := by omega
  have hA0 : 0 ≤ (angle.natAbs : ℤ) := by omega
  have hAq : (1:ℚ) ≤ ((angle.natAbs : ℤ) : ℚ) := by exact_mod_cast hA1
  have htpr : 0 < timePerRev toy := by cases toy <;> norm_num [timePerRev]
  have hnq : (0:ℚ) < (angle.natAbs : ℚ) := by
    exact_mod_cast Nat.pos_of_ne_zero hnz
  have hmin0 : 0 < timePerRev toy * (angle.natAbs : ℚ) / 360 := by positivity
  have hd : 0 < spinDuration toy angle duration := by
    apply lt_of_lt_of_le hmin0
    exact le_max_right _ _
  refine ⟨le_max_right _ _, ?_, ?_⟩
  · intro ds us hrun
    have hsum := spinRun_sum _ hA0 _ start ts 0 ds us (by omega) hrun
    have hnn := spinRun_nonneg _ hA0 _ start hd ts 0 ds us hsort hstart
      (fun t ht => spinTarget_nonneg _ hA0 _ start t hd (hstart t ht)) hrun
    have hne := spinRun_used_ne_nil _ _ start 0 ts ds us (by omega) hrun
    refine ⟨by omega, hnn, hne, ?_⟩
    intro tl htl
    have hlast := spinRun_last _ hA0 _ start ts 0 ds us (by omega) hrun tl htl
    have hpr : pyRound (min ((tl - start) / spinDuration toy angle duration) 1 *
        (((angle.natAbs : ℤ)) : ℚ)) = (angle.natAbs : ℤ) := hlast
    have h1 := pyRound_le (min ((tl - start) / spinDuration toy angle duration) 1 *
        (((angle.natAbs : ℤ)) : ℚ))
    rw [hpr] at h1
    have h2 : min ((tl - start) / spinDuration toy angle duration) 1 *
        (((angle.natAbs : ℤ)) : ℚ) ≤
        (tl - start) / spinDuration toy angle duration * (((angle.natAbs : ℤ)) : ℚ) :=
      mul_le_mul_of_nonneg_right (min_le_left _ _) (by linarith)
    have hx : (((angle.natAbs : ℤ)) : ℚ) - 1/2 ≤
        (tl - start) / spinDuration toy angle duration * (((angle.natAbs : ℤ)) : ℚ) := by
      linarith
    have hcast : (((angle.natAbs : ℤ)) : ℚ) = ((angle.natAbs : ℕ) : ℚ) :=
      Int.cast_natCast angle.natAbs
    rw [hcast] at hx
    rw [div_le_iff₀ (by positivity : (0:ℚ) < 2 * (angle.natAbs : ℚ))]
    have hdiv : (tl - start) / spinDuration toy angle duration *
        spinDuration toy angle duration = tl - start :=
      div_mul_cancel₀ _ (ne_of_gt hd)
    nlinarith [mul_le_mul_of_nonneg_left hx
      (by linarith : (0:ℚ) ≤ 2 * spinDuration toy angle duration)]
  · intro hex
    exact spinRun_isSome _ hA0 _ start hd ts 0 (by omega) hex

/-- Witness for C5_theorem at the inputs of the claim's particular case:
spin(360, 1.0) on the default 0.45-time-per-revolution model, with time
samples 0, 1/2, 1 from a start of 0. -/
theorem C5_witness :
    timePerRev ToyModel.sphero * ((360:ℤ).natAbs : ℚ) / 360 ≤
      spinDuration ToyModel.sphero 360 1 ∧
    (spinRun (((360:ℤ).natAbs : ℤ)) (spinDuration ToyModel.sphero 360 1) 0 0
      [0, 1/2, 1]).isSome := by
  have h := C5_theorem ToyModel.sphero 360 (by norm_num) 1 0 [0, 1/2, 1]
    (by norm_num [List.sorted_cons])
    (by
      intro t ht
      simp at ht
      rcases ht with rfl | rfl | rfl <;> norm_num)
  refine ⟨h.1, h.2.2 ⟨1, by norm_num, ?_⟩⟩
  norm_num [spinDuration, timePerRev, max_def]
